import Mathlib

/-!
Verification of the `dso::MinimalImage<T>` image-buffer container
(`src/dso/util/MinimalImage.h`).

The C++ class is embedded shallowly.  Heap storage is made explicit: a
`Mem T` maps block addresses (`Nat`, with `0` playing the role of the null
pointer) and element offsets (`Int`, matching C pointer arithmetic) to
element values, and additionally records each block's allocation size and
liveness so that `new[]` / `delete[]` behaviour is statable.  A
`MinimalImage T` holds the class fields `w`, `h`, `stride`, `data` (an
address into the heap) and the private `ownData` flag.  The floating-point
pixel coordinates of the marker helpers are modelled as exact rationals,
with `static_cast<int>` as truncation toward zero.
-/

namespace DSO

variable {T : Type}

/-- Flat heap: `contents a i` is the element at offset `i` of the block at
address `a`; `size a` records the element count of the allocation at `a`;
`allocated a` tracks liveness; `nextFree` is the next address handed out by
`new[]`.  Address `0` plays the role of the null pointer. -/
structure Mem (T : Type) where
  contents : Nat → Int → T
  size : Nat → Int
  allocated : Nat → Bool
  nextFree : Nat

/-- `new T[n]`: returns a fresh address, marks it allocated with size `n`,
and bumps `nextFree`.  The block's contents are left as they were
(uninitialized storage). -/
def Mem.alloc (m : Mem T) (n : Int) : Nat × Mem T :=
  (m.nextFree,
    { contents := m.contents
      size := fun a => if a = m.nextFree then n else m.size a
      allocated := fun a => if a = m.nextFree then true else m.allocated a
      nextFree := m.nextFree + 1 })

/-- `delete[]` of the block at `a`: the block is no longer live. -/
def Mem.free (m : Mem T) (a : Nat) : Mem T :=
  { m with allocated := fun b => if b = a then false else m.allocated b }

/-- A single element store `a[i] = v`. -/
def Mem.write (m : Mem T) (a : Nat) (i : Int) (v : T) : Mem T :=
  { m with contents := fun b j => if b = a ∧ j = i then v else m.contents b j }

/-- `std::memcpy(dst, src, sizeof(T) * n)` at element granularity: offsets
`0 ≤ j < n` of `dst` receive the corresponding elements of `src`. -/
def Mem.memcpy (m : Mem T) (dst src : Nat) (n : Int) : Mem T :=
  { m with contents := fun b j =>
      if b = dst ∧ 0 ≤ j ∧ j < n then m.contents src j else m.contents b j }

/-- `std::memset(a, 0, sizeof(T) * n)`, modelled element-wise for element
types whose all-zero byte pattern is their zero value (the numeric types the
file instantiates the template with). -/
def Mem.memset0 [Zero T] (m : Mem T) (a : Nat) (n : Int) : Mem T :=
  { m with contents := fun b j =>
      if b = a ∧ 0 ≤ j ∧ j < n then 0 else m.contents b j }

/-- The fields of `dso::MinimalImage<T>`: width `w`, height `h`, row
`stride`, the `data` pointer (heap address, `0` = `nullptr`) and the private
`ownData` flag.  `T` is the pixel element type; the pixel values themselves
live in the heap. -/
structure MinimalImage (T : Type) where
  w : Int
  h : Int
  stride : Int
  data : Nat
  ownData : Bool

/-- `MinimalImage(int w_, int h_, int stride_ = -1)`: the owning
constructor.  `stride = (stride_ > 0) ? stride_ : w; data = new T[stride * h];
ownData = true`. -/
def MinimalImage.mkOwn (T : Type) (w_ h_ stride_ : Int) (m : Mem T) :
    MinimalImage T × Mem T :=
  let st := if stride_ > 0 then stride_ else w_
  let am := m.alloc (st * h_)
  ({ w := w_, h := h_, stride := st, data := am.1, ownData := true }, am.2)

/-- The owning constructor with the `stride_` argument left at its default
value `-1`. -/
def MinimalImage.mkOwnDefault (T : Type) (w_ h_ : Int) (m : Mem T) :
    MinimalImage T × Mem T :=
  MinimalImage.mkOwn T w_ h_ (-1) m

/-- `MinimalImage(int w_, int h_, T* data_, int stride_ = -1)`: the wrapping
constructor; stores the caller's pointer and sets `ownData = false`. -/
def MinimalImage.mkWrap (T : Type) (w_ h_ : Int) (data_ : Nat) (stride_ : Int) :
    MinimalImage T :=
  let st := if stride_ > 0 then stride_ else w_
  { w := w_, h := h_, stride := st, data := data_, ownData := false }

/-- The wrapping constructor with the `stride_` argument left at its default
value `-1`. -/
def MinimalImage.mkWrapDefault (T : Type) (w_ h_ : Int) (data_ : Nat) :
    MinimalImage T :=
  MinimalImage.mkWrap T w_ h_ data_ (-1)

/-- `MinimalImage(const MinimalImage& other)`: copies `w`, `h`, `stride`;
when `other.ownData` it allocates a fresh block and `memcpy`s
`stride * h` elements (deep copy), otherwise it aliases `other.data` with
`ownData = false`.  Returns the constructed image and the heap. -/
def MinimalImage.copyCtor (m : Mem T) (other : MinimalImage T) :
    MinimalImage T × Mem T :=
  if other.ownData then
    let am := m.alloc (other.stride * other.h)
    let m2 := am.2.memcpy am.1 other.data (other.stride * other.h)
    ({ w := other.w, h := other.h, stride := other.stride, data := am.1,
       ownData := true }, m2)
  else
    ({ w := other.w, h := other.h, stride := other.stride, data := other.data,
       ownData := false }, m)

/-- `MinimalImage(MinimalImage&& other)`: steals every field, then sets
`other.data = nullptr` and `other.ownData = false`.  Returns the constructed
image and the moved-from `other`. -/
def MinimalImage.moveCtor (other : MinimalImage T) :
    MinimalImage T × MinimalImage T :=
  ({ w := other.w, h := other.h, stride := other.stride, data := other.data,
     ownData := other.ownData },
   { other with data := 0, ownData := false })

/-- Objects live at addresses so that `operator=`'s self-assignment test
`this != &other` is faithfully representable: an `Objs T` maps object
addresses to the images stored there. -/
def Objs (T : Type) := Nat → MinimalImage T

/-- Store image `img` at object address `p`. -/
def setObj (s : Objs T) (p : Nat) (img : MinimalImage T) : Objs T :=
  fun q => if q = p then img else s q

/-- `operator=(const MinimalImage& other)` acting on the object at `p` with
the source object at `q`.  Guarded by `this != &other` (`p ≠ q`); first
`delete[]`s owned storage (`if(ownData && data)`), copies the geometry,
then deep-copies (fresh allocation + `memcpy`) or aliases exactly as the
copy constructor does. -/
def MinimalImage.copyAssign (s : Objs T) (m : Mem T) (p q : Nat) :
    Objs T × Mem T :=
  if p ≠ q then
    let dst := s p
    let other := s q
    let m1 := if dst.ownData ∧ dst.data ≠ 0 then m.free dst.data else m
    if other.ownData then
      let am := m1.alloc (other.stride * other.h)
      let m2 := am.2.memcpy am.1 other.data (other.stride * other.h)
      (setObj s p { w := other.w, h := other.h, stride := other.stride,
                    data := am.1, ownData := true }, m2)
    else
      (setObj s p { w := other.w, h := other.h, stride := other.stride,
                    data := other.data, ownData := false }, m1)
  else (s, m)

/-- `operator=(MinimalImage&& other)` acting on the object at `p` with the
source object at `q`.  Guarded by `this != &other`; `delete[]`s owned
storage, steals the source's fields, then nulls the source's `data` and
clears its `ownData`. -/
def MinimalImage.moveAssign (s : Objs T) (m : Mem T) (p q : Nat) :
    Objs T × Mem T :=
  if p ≠ q then
    let dst := s p
    let other := s q
    let m1 := if dst.ownData ∧ dst.data ≠ 0 then m.free dst.data else m
    let s1 := setObj s p { w := other.w, h := other.h, stride := other.stride,
                           data := other.data, ownData := other.ownData }
    let s2 := setObj s1 q { s1 q with data := 0, ownData := false }
    (s2, m1)
  else (s, m)

/-- Reading through `T& at(int x, int y)`: the element at linear offset
`x + y*stride` of the block `data`.  (`at` is a reserved word here, hence
the name `atXY`.) -/
def MinimalImage.atXY (m : Mem T) (img : MinimalImage T) (x y : Int) : T :=
  m.contents img.data (x + y * img.stride)

/-- Writing through `T& at(int x, int y)`. -/
def MinimalImage.setXY (m : Mem T) (img : MinimalImage T) (x y : Int)
    (v : T) : Mem T :=
  m.write img.data (x + y * img.stride) v

/-- Reading through `T& at(int i)`: the raw linear index into the storage. -/
def MinimalImage.atIdx (m : Mem T) (img : MinimalImage T) (i : Int) : T :=
  m.contents img.data i

/-- Writing through `T& at(int i)`. -/
def MinimalImage.setIdx (m : Mem T) (img : MinimalImage T) (i : Int)
    (v : T) : Mem T :=
  m.write img.data i v

/-- `setBlack()`: `memset(data, 0, sizeof(T)*stride*h)`. -/
def MinimalImage.setBlack [Zero T] (m : Mem T) (img : MinimalImage T) : Mem T :=
  m.memset0 img.data (img.stride * img.h)

/-- The inner loop of `setConst`: `for(x = 0; x < w; ++x) at(x,y) = val`,
run for `k` iterations (`x = 0 .. k-1`, last iteration outermost). -/
def MinimalImage.setConstRow (img : MinimalImage T) (val : T) (y : Int) :
    Nat → Mem T → Mem T
  | 0, m => m
  | Nat.succ n, m =>
      MinimalImage.setXY (MinimalImage.setConstRow img val y n m) img
        (n : Int) y val

/-- The outer loop of `setConst`: rows `y = 0 .. k-1`, each running the
inner loop for `w` iterations. -/
def MinimalImage.setConstRows (img : MinimalImage T) (val : T) :
    Nat → Mem T → Mem T
  | 0, m => m
  | Nat.succ n, m =>
      MinimalImage.setConstRow img val (n : Int) img.w.toNat
        (MinimalImage.setConstRows img val n m)

/-- `setConst(val)`: the double loop `for y in [0,h) for x in [0,w)`
assigning `val` through `at(x,y)`. -/
def MinimalImage.setConst (m : Mem T) (img : MinimalImage T) (val : T) :
    Mem T :=
  MinimalImage.setConstRows img val img.h.toNat m

/-- `static_cast<int>` applied to a (finite, in-`int`-range) floating-point
value: truncation toward zero.  Coordinates are modelled as exact
rationals. -/
def castInt (q : ℚ) : Int := if 0 ≤ q then ⌊q⌋ else ⌈q⌉

/-- `setPixel1(u, v, val)`: `at(int(u + 0.5f), int(v + 0.5f)) = val`. -/
def MinimalImage.setPixel1 (m : Mem T) (img : MinimalImage T) (u v : ℚ)
    (val : T) : Mem T :=
  MinimalImage.setXY m img (castInt (u + 1/2)) (castInt (v + 1/2)) val

/-- `setPixel4(u, v, val)`: `iu = int(u); iv = int(v)`, then the four writes
`at(iu+1,iv+1)`, `at(iu+1,iv)`, `at(iu,iv+1)`, `at(iu,iv)`, in source
order. -/
def MinimalImage.setPixel4 (m : Mem T) (img : MinimalImage T) (u v : ℚ)
    (val : T) : Mem T :=
  let iu := castInt u
  let iv := castInt v
  let m1 := MinimalImage.setXY m img (iu + 1) (iv + 1) val
  let m2 := MinimalImage.setXY m1 img (iu + 1) iv val
  let m3 := MinimalImage.setXY m2 img iu (iv + 1) val
  MinimalImage.setXY m3 img iu iv val

/-- The loop body of `setPixelCirc` for a single value of `i`: the eight
writes, in source order. -/
def MinimalImage.circWrites (img : MinimalImage T) (u v : Int) (val : T)
    (i : Int) (m : Mem T) : Mem T :=
  let m1 := MinimalImage.setXY m img (u + 3) (v + i) val
  let m2 := MinimalImage.setXY m1 img (u - 3) (v + i) val
  let m3 := MinimalImage.setXY m2 img (u + 2) (v + i) val
  let m4 := MinimalImage.setXY m3 img (u - 2) (v + i) val
  let m5 := MinimalImage.setXY m4 img (u + i) (v - 3) val
  let m6 := MinimalImage.setXY m5 img (u + i) (v + 3) val
  let m7 := MinimalImage.setXY m6 img (u + i) (v - 2) val
  MinimalImage.setXY m7 img (u + i) (v + 2) val

/-- The loop of `setPixelCirc`: `k` iterations covering
`i = -3 .. -3 + k - 1`. -/
def MinimalImage.circLoop (img : MinimalImage T) (u v : Int) (val : T) :
    Nat → Mem T → Mem T
  | 0, m => m
  | Nat.succ n, m =>
      MinimalImage.circWrites img u v val (-3 + (n : Int))
        (MinimalImage.circLoop img u v val n m)

/-- `setPixelCirc(u, v, val)`: `for(i = -3; i <= 3; ++i)` — seven
iterations of the eight-write body. -/
def MinimalImage.setPixelCirc (m : Mem T) (img : MinimalImage T) (u v : Int)
    (val : T) : Mem T :=
  MinimalImage.circLoop img u v val 7 m

/-- `setPixel9(u, v, val)` inner writes for one row offset `dy`:
`at(u+dx, v+dy) = val` for `dx = -1, 0, 1`. -/
def MinimalImage.setPixel9Row (img : MinimalImage T) (u v : Int) (val : T)
    (dy : Int) (m : Mem T) : Mem T :=
  let m1 := MinimalImage.setXY m img (u - 1) (v + dy) val
  let m2 := MinimalImage.setXY m1 img u (v + dy) val
  MinimalImage.setXY m2 img (u + 1) (v + dy) val

/-- `setPixel9(u, v, val)`: the 3×3 block of writes for
`dy, dx ∈ {-1, 0, 1}`. -/
def MinimalImage.setPixel9 (m : Mem T) (img : MinimalImage T) (u v : Int)
    (val : T) : Mem T :=
  MinimalImage.setPixel9Row img u v val 1
    (MinimalImage.setPixel9Row img u v val 0
      (MinimalImage.setPixel9Row img u v val (-1) m))

/-! ### Helper lemmas -/

/-- The pixel-to-offset map `(x, y) ↦ x + y * s` is injective as long as the
`x` coordinates lie in `[0, s)`. -/
theorem offset_inj (s x y c r : Int) (hx0 : 0 ≤ x) (hxs : x < s) (hc0 : 0 ≤ c)
    (hcs : c < s) (h : x + y * s = c + r * s) : x = c ∧ y = r := by
  have hs : 0 < s := lt_of_le_of_lt hx0 hxs
  have hd : x - c = (r - y) * s := by linear_combination h
  rcases eq_or_ne y r with he | hne
  · subst he
    exact ⟨by linarith, rfl⟩
  · exfalso
    have h1 : 1 ≤ |r - y| := Int.one_le_abs (by omega)
    have h2 : |x - c| = |r - y| * |s| := by rw [hd, abs_mul]
    have h3 : |s| = s := abs_of_pos hs
    have h4 : s ≤ |x - c| := by
      rw [h2, h3]
      calc s = 1 * s := (one_mul s).symm
        _ ≤ |r - y| * s := mul_le_mul_of_nonneg_right h1 (le_of_lt hs)
    have h5 : |x - c| < s := abs_lt.mpr ⟨by omega, by omega⟩
    linarith

/-- Distinct pixels (with `x` coordinates in `[0, s)`) occupy distinct
offsets. -/
theorem off_ne (s x y c r : Int) (hx0 : 0 ≤ x) (hxs : x < s) (hc0 : 0 ≤ c)
    (hcs : c < s) (hne : ¬(x = c ∧ y = r)) : x + y * s ≠ c + r * s :=
  fun h => hne (offset_inj s x y c r hx0 hxs hc0 hcs h)

/-- An offset whose remainder `x` against row `d*s` lies in a window of
width `w ≤ s` pins down the row: `d = 0`. -/
theorem row_uniq (s w x d : Int) (hws : w ≤ s) (hx0 : 0 ≤ x) (hxs : x < s)
    (h1 : d * s ≤ x) (h2 : x < d * s + w) : d = 0 := by
  have hs : 0 < s := lt_of_le_of_lt hx0 hxs
  rcases lt_trichotomy d 0 with hd | hd | hd
  · exfalso
    have hm : d * s ≤ (-1) * s := mul_le_mul_of_nonneg_right (by omega) (le_of_lt hs)
    simp at hm
    omega
  · exact hd
  · exfalso
    have hm : 1 * s ≤ d * s := mul_le_mul_of_nonneg_right (by omega) (le_of_lt hs)
    simp at hm
    omega

/-! ### Concrete instances used by the witnesses -/

/-- A concrete heap over `Int` pixels: all elements `0`, block `1` live,
next fresh address `2`. -/
def memA : Mem Int :=
  { contents := fun _ _ => 0
    size := fun _ => 0
    allocated := fun a => a == 1
    nextFree := 2 }

/-- A concrete owning 4×3 image whose storage is block `1`. -/
def imgA : MinimalImage Int :=
  { w := 4, h := 3, stride := 4, data := 1, ownData := true }

/-- A concrete borrowing 4×3 image wrapping block `1`. -/
def imgB : MinimalImage Int :=
  { w := 4, h := 3, stride := 4, data := 1, ownData := false }

/-- A concrete 9×9 image with stride padding (stride 11), storage block `1`. -/
def imgC : MinimalImage Int :=
  { w := 9, h := 9, stride := 11, data := 1, ownData := true }

/-- A concrete object store: every object address holds `imgA`. -/
def objsA : Objs Int := fun _ => imgA

/-! ### Claims -/

/-- Claim C2: move construction and move assignment transfer `w`, `h`,
`stride`, the storage pointer and the ownership flag to the destination,
and leave the moved-from buffer with a null `data` pointer and a cleared
`ownData` flag. -/
theorem C2_move_transfer (T : Type) (b : MinimalImage T) (s : Objs T)
    (m : Mem T) (p q : Nat) (hpq : p ≠ q) (hq : s q = b) :
    ((MinimalImage.moveCtor b).1.w = b.w ∧
     (MinimalImage.moveCtor b).1.h = b.h ∧
     (MinimalImage.moveCtor b).1.stride = b.stride ∧
     (MinimalImage.moveCtor b).1.data = b.data ∧
     (MinimalImage.moveCtor b).1.ownData = b.ownData ∧
     (MinimalImage.moveCtor b).2.data = 0 ∧
     (MinimalImage.moveCtor b).2.ownData = false) ∧
    (((MinimalImage.moveAssign s m p q).1 p).w = b.w ∧
     ((MinimalImage.moveAssign s m p q).1 p).h = b.h ∧
     ((MinimalImage.moveAssign s m p q).1 p).stride = b.stride ∧
     ((MinimalImage.moveAssign s m p q).1 p).data = b.data ∧
     ((MinimalImage.moveAssign s m p q).1 p).ownData = b.ownData ∧
     ((MinimalImage.moveAssign s m p q).1 q).data = 0 ∧
     ((MinimalImage.moveAssign s m p q).1 q).ownData = false) := by
  subst hq
  refine ⟨⟨rfl, rfl, rfl, rfl, rfl, rfl, rfl⟩, ?_⟩
  simp [MinimalImage.moveAssign, setObj, hpq, Ne.symm hpq]

/-- Witness for C2 at concrete inputs. -/
theorem C2_move_transfer_witness :
    (0 : Nat) ≠ 1 ∧ objsA 1 = imgA ∧
    (((MinimalImage.moveCtor imgA).1.w = imgA.w ∧
      (MinimalImage.moveCtor imgA).1.h = imgA.h ∧
      (MinimalImage.moveCtor imgA).1.stride = imgA.stride ∧
      (MinimalImage.moveCtor imgA).1.data = imgA.data ∧
      (MinimalImage.moveCtor imgA).1.ownData = imgA.ownData ∧
      (MinimalImage.moveCtor imgA).2.data = 0 ∧
      (MinimalImage.moveCtor imgA).2.ownData = false) ∧
     (((MinimalImage.moveAssign objsA memA 0 1).1 0).w = imgA.w ∧
      ((MinimalImage.moveAssign objsA memA 0 1).1 0).h = imgA.h ∧
      ((MinimalImage.moveAssign objsA memA 0 1).1 0).stride = imgA.stride ∧
      ((MinimalImage.moveAssign objsA memA 0 1).1 0).data = imgA.data ∧
      ((MinimalImage.moveAssign objsA memA 0 1).1 0).ownData = imgA.ownData ∧
      ((MinimalImage.moveAssign objsA memA 0 1).1 1).data = 0 ∧
      ((MinimalImage.moveAssign objsA memA 0 1).1 1).ownData = false)) :=
  ⟨by decide, rfl, C2_move_transfer Int imgA objsA memA 0 1 (by decide) rfl⟩

/-- Claim C6: both constructors resolve the stride to `w` when the stride
argument is not positive (in particular at its default `-1`), and to the
given stride when it is positive; an owning construction allocates exactly
`stride * height` elements. -/
theorem C6_stride_resolution (T : Type) (w_ h_ stride_ : Int) (data_ : Nat)
    (m : Mem T) (hw : 0 < w_) (hh : 0 < h_) :
    (stride_ ≤ 0 →
      ((MinimalImage.mkOwn T w_ h_ stride_ m).1.stride = w_ ∧
       (MinimalImage.mkWrap T w_ h_ data_ stride_).stride = w_)) ∧
    (0 < stride_ →
      ((MinimalImage.mkOwn T w_ h_ stride_ m).1.stride = stride_ ∧
       (MinimalImage.mkWrap T w_ h_ data_ stride_).stride = stride_)) ∧
    (MinimalImage.mkOwnDefault T w_ h_ m).1.stride = w_ ∧
    (MinimalImage.mkWrapDefault T w_ h_ data_).stride = w_ ∧
    (MinimalImage.mkOwn T w_ h_ stride_ m).2.size
        (MinimalImage.mkOwn T w_ h_ stride_ m).1.data =
      (MinimalImage.mkOwn T w_ h_ stride_ m).1.stride * h_ ∧
    (MinimalImage.mkOwn T w_ h_ stride_ m).1.ownData = true := by
  refine ⟨fun hle => ?_, fun hpos => ?_, ?_, ?_, ?_, rfl⟩
  · constructor
    · simp [MinimalImage.mkOwn, Mem.alloc, not_lt.mpr hle]
    · simp [MinimalImage.mkWrap, not_lt.mpr hle]
  · constructor
    · simp [MinimalImage.mkOwn, Mem.alloc, hpos]
    · simp [MinimalImage.mkWrap, hpos]
  · simp [MinimalImage.mkOwnDefault, MinimalImage.mkOwn, Mem.alloc]
  · simp [MinimalImage.mkWrapDefault, MinimalImage.mkWrap]
  · simp [MinimalImage.mkOwn, Mem.alloc]

/-- Witness for C6 at concrete inputs. -/
theorem C6_stride_resolution_witness :
    (0 : Int) < 4 ∧ (0 : Int) < 3 ∧
    (((-1 : Int) ≤ 0 →
       ((MinimalImage.mkOwn Int 4 3 (-1) memA).1.stride = 4 ∧
        (MinimalImage.mkWrap Int 4 3 1 (-1)).stride = 4)) ∧
     ((0 : Int) < -1 →
       ((MinimalImage.mkOwn Int 4 3 (-1) memA).1.stride = -1 ∧
        (MinimalImage.mkWrap Int 4 3 1 (-1)).stride = -1)) ∧
     (MinimalImage.mkOwnDefault Int 4 3 memA).1.stride = 4 ∧
     (MinimalImage.mkWrapDefault Int 4 3 1).stride = 4 ∧
     (MinimalImage.mkOwn Int 4 3 (-1) memA).2.size
         (MinimalImage.mkOwn Int 4 3 (-1) memA).1.data =
       (MinimalImage.mkOwn Int 4 3 (-1) memA).1.stride * 3 ∧
     (MinimalImage.mkOwn Int 4 3 (-1) memA).1.ownData = true) :=
  ⟨by decide, by decide, C6_stride_resolution Int 4 3 (-1) 1 memA (by decide) (by decide)⟩

/-- Claim C8: copy-assigning a buffer to itself is a no-op — the object
store and the heap are unchanged; in particular `w`, `h`, `stride`, `data`,
`ownData`, the stored elements and the liveness of the owned block are all
preserved. -/
theorem C8_self_assignment_noop (T : Type) (s : Objs T) (m : Mem T) (p : Nat) :
    (MinimalImage.copyAssign s m p p).1 = s ∧
    (MinimalImage.copyAssign s m p p).2 = m ∧
    ((MinimalImage.copyAssign s m p p).1 p).w = (s p).w ∧
    ((MinimalImage.copyAssign s m p p).1 p).h = (s p).h ∧
    ((MinimalImage.copyAssign s m p p).1 p).stride = (s p).stride ∧
    ((MinimalImage.copyAssign s m p p).1 p).data = (s p).data ∧
    ((MinimalImage.copyAssign s m p p).1 p).ownData = (s p).ownData ∧
    (∀ j : Int, (MinimalImage.copyAssign s m p p).2.contents (s p).data j =
      m.contents (s p).data j) ∧
    (MinimalImage.copyAssign s m p p).2.allocated (s p).data =
      m.allocated (s p).data := by
  simp [MinimalImage.copyAssign]

/-- Claim C9: the two-argument accessor and the linear accessor address the
same element: `at(x, y)` is `at(x + y*stride)`, in both the reading and the
writing direction. -/
theorem C9_at_agree (T : Type) (m : Mem T) (img : MinimalImage T)
    (x y : Int) (v : T) (hx0 : 0 ≤ x) (hxs : x < img.stride) (hy0 : 0 ≤ y)
    (hyh : y < img.h) :
    MinimalImage.atXY m img x y =
      MinimalImage.atIdx m img (x + y * img.stride) ∧
    MinimalImage.setXY m img x y v =
      MinimalImage.setIdx m img (x + y * img.stride) v :=
  ⟨rfl, rfl⟩

/-- Witness for C9 at concrete inputs. -/
theorem C9_at_agree_witness :
    (0 : Int) ≤ 2 ∧ (2 : Int) < imgA.stride ∧ (0 : Int) ≤ 1 ∧
    (1 : Int) < imgA.h ∧
    (MinimalImage.atXY memA imgA 2 1 =
       MinimalImage.atIdx memA imgA (2 + 1 * imgA.stride) ∧
     MinimalImage.setXY memA imgA 2 1 7 =
       MinimalImage.setIdx memA imgA (2 + 1 * imgA.stride) 7) :=
  ⟨by decide, by decide, by decide, by decide,
   C9_at_agree Int memA imgA 2 1 7 (by decide) (by decide) (by decide)
     (by decide)⟩

/-- When the rounded coordinate is known to be non-negative, the C cast in
`setPixel1`/`setPixel4` (truncation toward zero) coincides with the floor. -/
theorem castInt_eq_floor (q : ℚ) (h : 0 ≤ ⌊q⌋) : castInt q = ⌊q⌋ := by
  unfold castInt
  rw [if_pos (Int.floor_nonneg.mp h)]

/-- In-bounds pixels occupy offsets inside the backing store. -/
theorem offset_in_store (s hh x y : Int) (h0s : 0 < s) (hx0 : 0 ≤ x)
    (hxs : x < s) (hy0 : 0 ≤ y) (hyh : y < hh) :
    0 ≤ x + y * s ∧ x + y * s < s * hh := by
  constructor
  · have hys : 0 ≤ y * s := mul_nonneg hy0 (le_of_lt h0s)
    linarith
  · nlinarith [mul_le_mul_of_nonneg_right (show y ≤ hh - 1 by omega)
      (le_of_lt h0s)]

/-- Claim C5: `setBlack()` zeroes the entire backing store — every offset in
`[0, stride*h)` — and in particular every in-bounds pixel `at(x, y)` reads
zero afterwards. -/
theorem C5_setBlack_zeroes (T : Type) [Zero T] (m : Mem T)
    (img : MinimalImage T) (hws : img.w ≤ img.stride)
    (h0s : 0 < img.stride) :
    (∀ o : Int, 0 ≤ o → o < img.stride * img.h →
       (MinimalImage.setBlack m img).contents img.data o = 0) ∧
    (∀ x y : Int, 0 ≤ x → x < img.w → 0 ≤ y → y < img.h →
       MinimalImage.atXY (MinimalImage.setBlack m img) img x y = 0) := by
  constructor
  · intro o h0 h1
    simp [MinimalImage.setBlack, Mem.memset0, h0, h1]
  · intro x y hx0 hxw hy0 hyh
    obtain ⟨h0, h1⟩ := offset_in_store img.stride img.h x y h0s hx0
      (lt_of_lt_of_le hxw hws) hy0 hyh
    simp [MinimalImage.atXY, MinimalImage.setBlack, Mem.memset0, h0, h1]

/-- Witness for C5 at concrete inputs. -/
theorem C5_setBlack_zeroes_witness :
    imgA.w ≤ imgA.stride ∧ (0 : Int) < imgA.stride ∧
    ((∀ o : Int, 0 ≤ o → o < imgA.stride * imgA.h →
        (MinimalImage.setBlack memA imgA).contents imgA.data o = 0) ∧
     (∀ x y : Int, 0 ≤ x → x < imgA.w → 0 ≤ y → y < imgA.h →
        MinimalImage.atXY (MinimalImage.setBlack memA imgA) imgA x y = 0)) :=
  ⟨by decide, by decide,
   C5_setBlack_zeroes Int memA imgA (by decide) (by decide)⟩

/-- Claim C3: when the rounded coordinates land in bounds, `setPixel1(u, v,
val)` stores `val` at exactly the pixel `(⌊u+1/2⌋, ⌊v+1/2⌋)` and leaves
every other cell of the backing store unchanged. -/
theorem C3_setPixel1_single (T : Type) (m : Mem T) (img : MinimalImage T)
    (u v : ℚ) (val : T) (hws : img.w ≤ img.stride)
    (hu0 : 0 ≤ ⌊u + 1/2⌋) (huw : ⌊u + 1/2⌋ < img.w)
    (hv0 : 0 ≤ ⌊v + 1/2⌋) (hvh : ⌊v + 1/2⌋ < img.h) :
    MinimalImage.atXY (MinimalImage.setPixel1 m img u v val) img
      ⌊u + 1/2⌋ ⌊v + 1/2⌋ = val ∧
    ∀ x y : Int, 0 ≤ x → x < img.stride → 0 ≤ y → y < img.h →
      ¬(x = ⌊u + 1/2⌋ ∧ y = ⌊v + 1/2⌋) →
      MinimalImage.atXY (MinimalImage.setPixel1 m img u v val) img x y =
        MinimalImage.atXY m img x y := by
  have hcu : castInt (u + 1/2) = ⌊u + 1/2⌋ := castInt_eq_floor _ hu0
  have hcv : castInt (v + 1/2) = ⌊v + 1/2⌋ := castInt_eq_floor _ hv0
  constructor
  · simp only [MinimalImage.setPixel1]
    rw [hcu, hcv]
    simp [MinimalImage.setXY, Mem.write, MinimalImage.atXY]
  · intro x y hx0 hxs hy0 hyh hne
    simp only [MinimalImage.setPixel1]
    rw [hcu, hcv]
    simp only [MinimalImage.setXY, Mem.write, MinimalImage.atXY]
    rw [if_neg]
    rintro ⟨-, hc⟩
    exact hne (offset_inj img.stride x y ⌊u + 1/2⌋ ⌊v + 1/2⌋ hx0 hxs hu0
      (lt_of_lt_of_le huw hws) hc)

/-- Witness for C3 at concrete inputs. -/
theorem C3_setPixel1_single_witness :
    imgA.w ≤ imgA.stride ∧
    (0 : Int) ≤ ⌊(3/2 : ℚ) + 1/2⌋ ∧ ⌊(3/2 : ℚ) + 1/2⌋ < imgA.w ∧
    (0 : Int) ≤ ⌊(1/2 : ℚ) + 1/2⌋ ∧ ⌊(1/2 : ℚ) + 1/2⌋ < imgA.h ∧
    (MinimalImage.atXY (MinimalImage.setPixel1 memA imgA (3/2) (1/2) 9) imgA
       ⌊(3/2 : ℚ) + 1/2⌋ ⌊(1/2 : ℚ) + 1/2⌋ = 9 ∧
     ∀ x y : Int, 0 ≤ x → x < imgA.stride → 0 ≤ y → y < imgA.h →
       ¬(x = ⌊(3/2 : ℚ) + 1/2⌋ ∧ y = ⌊(1/2 : ℚ) + 1/2⌋) →
       MinimalImage.atXY (MinimalImage.setPixel1 memA imgA (3/2) (1/2) 9)
           imgA x y =
         MinimalImage.atXY memA imgA x y) :=
  ⟨by decide, by norm_num, by norm_num [imgA], by norm_num,
   by norm_num [imgA],
   C3_setPixel1_single Int memA imgA (3/2) (1/2) 9 (by decide) (by norm_num)
     (by norm_num [imgA]) (by norm_num) (by norm_num [imgA])⟩

/-- Characterization of the four-write chain of `setPixel4` with resolved
integer corner `(a, b)`: a cell of the backing store holds `val` exactly on
the 2×2 block, and is otherwise untouched. -/
theorem setPixel4_core (m : Mem T) (img : MinimalImage T) (a b x y : Int)
    (val : T) (ha0 : 0 ≤ a) (has : a + 1 < img.stride) (hx0 : 0 ≤ x)
    (hxs : x < img.stride) :
    (MinimalImage.setXY
        (MinimalImage.setXY
          (MinimalImage.setXY (MinimalImage.setXY m img (a + 1) (b + 1) val)
            img (a + 1) b val)
          img a (b + 1) val)
        img a b val).contents img.data (x + y * img.stride) =
      if (x = a ∨ x = a + 1) ∧ (y = b ∨ y = b + 1) then val
      else m.contents img.data (x + y * img.stride) := by
  simp only [MinimalImage.setXY, Mem.write]
  by_cases hxy : (x = a ∨ x = a + 1) ∧ (y = b ∨ y = b + 1)
  · rw [if_pos hxy]
    obtain ⟨hx1 | hx1, hy1 | hy1⟩ := hxy
    · rw [hx1, hy1]
      simp
    · rw [hx1, hy1]
      rw [if_neg (fun hc => off_ne img.stride a (b + 1) a b ha0 (by omega)
        ha0 (by omega) (by omega) hc.2)]
      simp
    · rw [hx1, hy1]
      rw [if_neg (fun hc => off_ne img.stride (a + 1) b a b (by omega) has
            ha0 (by omega) (by omega) hc.2),
          if_neg (fun hc => off_ne img.stride (a + 1) b a (b + 1) (by omega)
            has ha0 (by omega) (by omega) hc.2)]
      simp
    · rw [hx1, hy1]
      rw [if_neg (fun hc => off_ne img.stride (a + 1) (b + 1) a b (by omega)
            has ha0 (by omega) (by omega) hc.2),
          if_neg (fun hc => off_ne img.stride (a + 1) (b + 1) a (b + 1)
            (by omega) has ha0 (by omega) (by omega) hc.2),
          if_neg (fun hc => off_ne img.stride (a + 1) (b + 1) (a + 1) b
            (by omega) has (by omega) has (by omega) hc.2)]
      simp
  · rw [if_neg hxy]
    rw [if_neg (fun hc => hxy (by
          obtain ⟨e1, e2⟩ := offset_inj img.stride x y a b hx0 hxs ha0
            (by omega) hc.2
          exact ⟨Or.inl e1, Or.inl e2⟩)),
        if_neg (fun hc => hxy (by
          obtain ⟨e1, e2⟩ := offset_inj img.stride x y a (b + 1) hx0 hxs ha0
            (by omega) hc.2
          exact ⟨Or.inl e1, Or.inr e2⟩)),
        if_neg (fun hc => hxy (by
          obtain ⟨e1, e2⟩ := offset_inj img.stride x y (a + 1) b hx0 hxs
            (by omega) has hc.2
          exact ⟨Or.inr e1, Or.inl e2⟩)),
        if_neg (fun hc => hxy (by
          obtain ⟨e1, e2⟩ := offset_inj img.stride x y (a + 1) (b + 1) hx0
            hxs (by omega) has hc.2
          exact ⟨Or.inr e1, Or.inr e2⟩))]

/-- Claim C7: when the 2×2 block at `(⌊u⌋, ⌊v⌋)` lies in bounds,
`setPixel4(u, v, val)` stores `val` at exactly the four pixels
`(⌊u⌋, ⌊v⌋)`, `(⌊u⌋+1, ⌊v⌋)`, `(⌊u⌋, ⌊v⌋+1)`, `(⌊u⌋+1, ⌊v⌋+1)` and leaves
every other cell of the backing store unchanged. -/
theorem C7_setPixel4_block (T : Type) (m : Mem T) (img : MinimalImage T)
    (u v : ℚ) (val : T) (hws : img.w ≤ img.stride)
    (hu0 : 0 ≤ ⌊u⌋) (huw : ⌊u⌋ + 1 < img.w)
    (hv0 : 0 ≤ ⌊v⌋) (hvh : ⌊v⌋ + 1 < img.h) :
    (MinimalImage.atXY (MinimalImage.setPixel4 m img u v val) img ⌊u⌋ ⌊v⌋ =
       val ∧
     MinimalImage.atXY (MinimalImage.setPixel4 m img u v val) img (⌊u⌋ + 1)
       ⌊v⌋ = val ∧
     MinimalImage.atXY (MinimalImage.setPixel4 m img u v val) img ⌊u⌋
       (⌊v⌋ + 1) = val ∧
     MinimalImage.atXY (MinimalImage.setPixel4 m img u v val) img (⌊u⌋ + 1)
       (⌊v⌋ + 1) = val) ∧
    ∀ x y : Int, 0 ≤ x → x < img.stride → 0 ≤ y → y < img.h →
      ¬((x = ⌊u⌋ ∨ x = ⌊u⌋ + 1) ∧ (y = ⌊v⌋ ∨ y = ⌊v⌋ + 1)) →
      MinimalImage.atXY (MinimalImage.setPixel4 m img u v val) img x y =
        MinimalImage.atXY m img x y := by
  have hcu : castInt u = ⌊u⌋ := castInt_eq_floor u hu0
  have hcv : castInt v = ⌊v⌋ := castInt_eq_floor v hv0
  have has : ⌊u⌋ + 1 < img.stride := by omega
  have hsp : MinimalImage.setPixel4 m img u v val =
      MinimalImage.setXY
        (MinimalImage.setXY
          (MinimalImage.setXY
            (MinimalImage.setXY m img (⌊u⌋ + 1) (⌊v⌋ + 1) val)
            img (⌊u⌋ + 1) ⌊v⌋ val)
          img ⌊u⌋ (⌊v⌋ + 1) val)
        img ⌊u⌋ ⌊v⌋ val := by
    simp only [MinimalImage.setPixel4]
    rw [hcu, hcv]
  refine ⟨⟨?_, ?_, ?_, ?_⟩, ?_⟩
  · show (MinimalImage.setPixel4 m img u v val).contents img.data
      (⌊u⌋ + ⌊v⌋ * img.stride) = val
    rw [hsp, setPixel4_core m img ⌊u⌋ ⌊v⌋ ⌊u⌋ ⌊v⌋ val hu0 has hu0 (by omega)]
    simp
  · show (MinimalImage.setPixel4 m img u v val).contents img.data
      (⌊u⌋ + 1 + ⌊v⌋ * img.stride) = val
    rw [hsp, setPixel4_core m img ⌊u⌋ ⌊v⌋ (⌊u⌋ + 1) ⌊v⌋ val hu0 has
      (by omega) has]
    simp
  · show (MinimalImage.setPixel4 m img u v val).contents img.data
      (⌊u⌋ + (⌊v⌋ + 1) * img.stride) = val
    rw [hsp, setPixel4_core m img ⌊u⌋ ⌊v⌋ ⌊u⌋ (⌊v⌋ + 1) val hu0 has hu0
      (by omega)]
    simp
  · show (MinimalImage.setPixel4 m img u v val).contents img.data
      (⌊u⌋ + 1 + (⌊v⌋ + 1) * img.stride) = val
    rw [hsp, setPixel4_core m img ⌊u⌋ ⌊v⌋ (⌊u⌋ + 1) (⌊v⌋ + 1) val hu0 has
      (by omega) has]
    simp
  · intro x y hx0 hxs hy0 hyh hne
    show (MinimalImage.setPixel4 m img u v val).contents img.data
      (x + y * img.stride) = m.contents img.data (x + y * img.stride)
    rw [hsp, setPixel4_core m img ⌊u⌋ ⌊v⌋ x y val hu0 has hx0 hxs,
      if_neg hne]

/-- Witness for C7 at concrete inputs (the spec's own example
`set_pixel_4(1.0, 1.0, 9)`). -/
theorem C7_setPixel4_block_witness :
    imgA.w ≤ imgA.stride ∧
    (0 : Int) ≤ ⌊(1 : ℚ)⌋ ∧ ⌊(1 : ℚ)⌋ + 1 < imgA.w ∧
    (0 : Int) ≤ ⌊(1 : ℚ)⌋ ∧ ⌊(1 : ℚ)⌋ + 1 < imgA.h ∧
    ((MinimalImage.atXY (MinimalImage.setPixel4 memA imgA 1 1 9) imgA ⌊(1 : ℚ)⌋
        ⌊(1 : ℚ)⌋ = 9 ∧
      MinimalImage.atXY (MinimalImage.setPixel4 memA imgA 1 1 9) imgA
        (⌊(1 : ℚ)⌋ + 1) ⌊(1 : ℚ)⌋ = 9 ∧
      MinimalImage.atXY (MinimalImage.setPixel4 memA imgA 1 1 9) imgA
        ⌊(1 : ℚ)⌋ (⌊(1 : ℚ)⌋ + 1) = 9 ∧
      MinimalImage.atXY (MinimalImage.setPixel4 memA imgA 1 1 9) imgA
        (⌊(1 : ℚ)⌋ + 1) (⌊(1 : ℚ)⌋ + 1) = 9) ∧
     ∀ x y : Int, 0 ≤ x → x < imgA.stride → 0 ≤ y → y < imgA.h →
       ¬((x = ⌊(1 : ℚ)⌋ ∨ x = ⌊(1 : ℚ)⌋ + 1) ∧
         (y = ⌊(1 : ℚ)⌋ ∨ y = ⌊(1 : ℚ)⌋ + 1)) →
       MinimalImage.atXY (MinimalImage.setPixel4 memA imgA 1 1 9) imgA x y =
         MinimalImage.atXY memA imgA x y) :=
  ⟨by decide, by norm_num, by norm_num [imgA], by norm_num,
   by norm_num [imgA],
   C7_setPixel4_block Int memA imgA 1 1 9 (by decide) (by norm_num)
     (by norm_num [imgA]) (by norm_num) (by norm_num [imgA])⟩

/-- Characterization of the inner `setConst` loop: after `k` iterations on
row `y`, a cell holds `val` exactly when it lies in the written span
`[y*stride, y*stride + k)` of the block `data`. -/
theorem setConstRow_contents (img : MinimalImage T) (val : T) (y : Int)
    (k : Nat) (m : Mem T) (c : Nat) (o : Int) :
    (MinimalImage.setConstRow img val y k m).contents c o =
      if c = img.data ∧ y * img.stride ≤ o ∧
          o < y * img.stride + (k : Int) then val
      else m.contents c o := by
  induction k with
  | zero =>
      rw [MinimalImage.setConstRow, if_neg]
      rintro ⟨-, h1, h2⟩
      push_cast at h2
      linarith
  | succ n ih =>
      simp only [MinimalImage.setConstRow, MinimalImage.setXY, Mem.write, ih]
      by_cases h1 : c = img.data ∧ o = (n : Int) + y * img.stride
      · rw [if_pos h1, if_pos]
        refine ⟨h1.1, ?_, ?_⟩
        · have hn : (0 : Int) ≤ (n : Int) := Int.natCast_nonneg n
          linarith [h1.2.ge, h1.2.le]
        · push_cast
          linarith [h1.2.le, h1.2.ge]
      · rw [if_neg h1]
        by_cases h2 : c = img.data ∧ y * img.stride ≤ o ∧
            o < y * img.stride + (n : Int)
        · rw [if_pos h2, if_pos]
          refine ⟨h2.1, h2.2.1, ?_⟩
          push_cast
          linarith [h2.2.2]
        · rw [if_neg h2, if_neg]
          rintro ⟨hc, hlo, hhi⟩
          refine h2 ⟨hc, hlo, ?_⟩
          have hne : o ≠ (n : Int) + y * img.stride := fun he => h1 ⟨hc, he⟩
          push_cast at hhi
          have hle : o ≤ y * img.stride + (n : Int) := by linarith
          rcases lt_or_eq_of_le hle with hlt | heq
          · exact hlt
          · exact absurd (by linarith [heq]) hne

/-- After the first `k` rows of `setConst`, every pixel of a completed row
(`y < k`, `0 ≤ x < w`) holds `val`. -/
theorem setConstRows_val (img : MinimalImage T) (val : T) (k : Nat)
    (m : Mem T) (x y : Int) (hx0 : 0 ≤ x) (hxw : x < img.w) (hy0 : 0 ≤ y)
    (hyk : y < (k : Int)) :
    (MinimalImage.setConstRows img val k m).contents img.data
      (x + y * img.stride) = val := by
  induction k with
  | zero =>
      push_cast at hyk
      omega
  | succ n ih =>
      simp only [MinimalImage.setConstRows]
      rw [setConstRow_contents]
      by_cases hcov : img.data = img.data ∧
          (n : Int) * img.stride ≤ x + y * img.stride ∧
          x + y * img.stride < (n : Int) * img.stride + (img.w.toNat : Int)
      · rw [if_pos hcov]
      · rw [if_neg hcov]
        by_cases hy : y = (n : Int)
        · exfalso
          apply hcov
          refine ⟨rfl, ?_, ?_⟩
          · rw [hy]
            linarith
          · rw [hy]
            have hw : (img.w.toNat : Int) = img.w := Int.toNat_of_nonneg (by omega)
            linarith [hw.ge, hw.le]
        · apply ih
          push_cast at hyk
          omega

/-- After the first `k` rows of `setConst`, any cell covered by no row
segment `[yy*stride, yy*stride + w)` with `yy < k` is unchanged. -/
theorem setConstRows_frame (img : MinimalImage T) (val : T) (k : Nat)
    (m : Mem T) (c : Nat) (o : Int)
    (hno : ∀ yy : Nat, yy < k → c = img.data →
      ¬((yy : Int) * img.stride ≤ o ∧
        o < (yy : Int) * img.stride + (img.w.toNat : Int))) :
    (MinimalImage.setConstRows img val k m).contents c o = m.contents c o := by
  induction k with
  | zero => rfl
  | succ n ih =>
      simp only [MinimalImage.setConstRows]
      rw [setConstRow_contents, if_neg, ih (fun yy hlt => hno yy (by omega))]
      rintro ⟨hc, hseg⟩
      exact hno n (by omega) hc hseg

/-- Claim C4: on a buffer with `stride ≥ w`, `setConst(val)` makes every
in-bounds pixel read `val`, while every cell in the stride padding columns
(`x ∈ [w, stride)`, any row) keeps its previous value. -/
theorem C4_setConst_fills (T : Type) (m : Mem T) (img : MinimalImage T)
    (val : T) (hws : img.w ≤ img.stride) (hw0 : 0 ≤ img.w)
    (h0s : 0 < img.stride) :
    (∀ x y : Int, 0 ≤ x → x < img.w → 0 ≤ y → y < img.h →
       MinimalImage.atXY (MinimalImage.setConst m img val) img x y = val) ∧
    (∀ x y : Int, img.w ≤ x → x < img.stride →
       MinimalImage.atXY (MinimalImage.setConst m img val) img x y =
         MinimalImage.atXY m img x y) := by
  constructor
  · intro x y hx0 hxw hy0 hyh
    exact setConstRows_val img val img.h.toNat m x y hx0 hxw hy0 (by omega)
  · intro x y hwx hxs
    apply setConstRows_frame
    intro yy hlt hc
    rintro ⟨h1, h2⟩
    have hx0 : 0 ≤ x := le_trans hw0 hwx
    have hwn : (img.w.toNat : Int) = img.w := Int.toNat_of_nonneg hw0
    have hd1 : ((yy : Int) - y) * img.stride ≤ x := by
      have : ((yy : Int) - y) * img.stride =
          (yy : Int) * img.stride - y * img.stride := by ring
      linarith [this.le, this.ge]
    have hd2 : x < ((yy : Int) - y) * img.stride + img.w := by
      have : ((yy : Int) - y) * img.stride =
          (yy : Int) * img.stride - y * img.stride := by ring
      linarith [this.le, this.ge, hwn.le, hwn.ge]
    have h0 : (yy : Int) - y = 0 :=
      row_uniq img.stride img.w x ((yy : Int) - y) hws hx0 hxs hd1 hd2
    have hyy : (yy : Int) = y := by omega
    rw [hyy] at h1 h2
    rw [hwn] at h2
    linarith

/-- Witness for C4 at concrete inputs (stride padding present: `imgC` is
9×9 with stride 11). -/
theorem C4_setConst_fills_witness :
    imgC.w ≤ imgC.stride ∧ (0 : Int) ≤ imgC.w ∧ (0 : Int) < imgC.stride ∧
    ((∀ x y : Int, 0 ≤ x → x < imgC.w → 0 ≤ y → y < imgC.h →
        MinimalImage.atXY (MinimalImage.setConst memA imgC 7) imgC x y = 7) ∧
     (∀ x y : Int, imgC.w ≤ x → x < imgC.stride →
        MinimalImage.atXY (MinimalImage.setConst memA imgC 7) imgC x y =
          MinimalImage.atXY memA imgC x y)) :=
  ⟨by decide, by decide, by decide,
   C4_setConst_fills Int memA imgC 7 (by decide) (by decide) (by decide)⟩

/-- Unfolding of the copy constructor on an owning source. -/
theorem copyCtor_own (m : Mem T) (b : MinimalImage T) (hown : b.ownData = true) :
    MinimalImage.copyCtor m b =
      ({ w := b.w, h := b.h, stride := b.stride, data := m.nextFree,
         ownData := true },
       (m.alloc (b.stride * b.h)).2.memcpy m.nextFree b.data
         (b.stride * b.h)) := by
  simp [MinimalImage.copyCtor, hown, Mem.alloc]

/-- Unfolding of the copy constructor on a borrowing source. -/
theorem copyCtor_borrow (m : Mem T) (b : MinimalImage T)
    (hown : b.ownData = false) :
    MinimalImage.copyCtor m b =
      ({ w := b.w, h := b.h, stride := b.stride, data := b.data,
         ownData := false }, m) := by
  simp [MinimalImage.copyCtor, hown]

/-- Unfolding of the copy assignment on an owning source (distinct
objects). -/
theorem copyAssign_own (s : Objs T) (m : Mem T) (p q : Nat) (hpq : p ≠ q)
    (hown : (s q).ownData = true) :
    MinimalImage.copyAssign s m p q =
      (setObj s p { w := (s q).w, h := (s q).h, stride := (s q).stride,
                    data := m.nextFree, ownData := true },
       ((if (s p).ownData ∧ (s p).data ≠ 0 then m.free (s p).data
         else m).alloc ((s q).stride * (s q).h)).2.memcpy m.nextFree
         (s q).data ((s q).stride * (s q).h)) := by
  by_cases hdst : (s p).ownData ∧ (s p).data ≠ 0
  · simp [MinimalImage.copyAssign, hpq, hown, hdst, Mem.free, Mem.alloc]
  · simp [MinimalImage.copyAssign, hpq, hown, hdst, Mem.alloc]

/-- Unfolding of the copy assignment on a borrowing source (distinct
objects). -/
theorem copyAssign_borrow (s : Objs T) (m : Mem T) (p q : Nat) (hpq : p ≠ q)
    (hown : (s q).ownData = false) :
    MinimalImage.copyAssign s m p q =
      (setObj s p { w := (s q).w, h := (s q).h, stride := (s q).stride,
                    data := (s q).data, ownData := false },
       if (s p).ownData ∧ (s p).data ≠ 0 then m.free (s p).data else m) := by
  simp [MinimalImage.copyAssign, hpq, hown]

/-- The deep-copy core shared by the copy constructor and copy assignment:
allocating a fresh block on any heap `m1` that agrees with `m0` on contents
and next address, then `memcpy`ing `n` elements from a valid source block,
yields a distinct block with equal contents, and subsequent writes through
either block do not affect the other. -/
theorem deep_copy_core (m0 m1 : Mem T) (src : Nat) (n : Int)
    (hc : m1.contents = m0.contents) (hn : m1.nextFree = m0.nextFree)
    (hvalid : src < m0.nextFree) :
    m0.nextFree ≠ src ∧
    (∀ o : Int, 0 ≤ o → o < n →
      ((m1.alloc n).2.memcpy m0.nextFree src n).contents m0.nextFree o =
        m0.contents src o) ∧
    (∀ i : Int, ∀ v : T, ∀ j : Int,
      (((m1.alloc n).2.memcpy m0.nextFree src n).write m0.nextFree i
          v).contents src j =
        ((m1.alloc n).2.memcpy m0.nextFree src n).contents src j ∧
      (((m1.alloc n).2.memcpy m0.nextFree src n).write src i v).contents
          m0.nextFree j =
        ((m1.alloc n).2.memcpy m0.nextFree src n).contents m0.nextFree j) := by
  have hne : m0.nextFree ≠ src := by omega
  refine ⟨hne, ?_, ?_⟩
  · intro o h0 h1
    simp [Mem.memcpy, Mem.alloc, hc, h0, h1]
  · intro i v j
    constructor
    · simp [Mem.write, Ne.symm hne]
    · simp [Mem.write, hne]

/-- Claim C1: copying (by constructor or assignment) from an owning buffer
yields a buffer with the same geometry and element-wise equal contents in a
distinct block, so mutations of either do not affect the other; copying
from a borrowing buffer yields a non-owning buffer aliasing the same block,
so a mutation through either is visible through the other. -/
theorem C1_copy_semantics (T : Type) (b : MinimalImage T) (m : Mem T)
    (s : Objs T) (p q : Nat) (hpq : p ≠ q) (hq : s q = b)
    (hvalid : b.data < m.nextFree) :
    (b.ownData = true →
      ((MinimalImage.copyCtor m b).1.w = b.w ∧
       (MinimalImage.copyCtor m b).1.h = b.h ∧
       (MinimalImage.copyCtor m b).1.stride = b.stride ∧
       (MinimalImage.copyCtor m b).1.ownData = true ∧
       (∀ o : Int, 0 ≤ o → o < b.stride * b.h →
          (MinimalImage.copyCtor m b).2.contents
            (MinimalImage.copyCtor m b).1.data o = m.contents b.data o) ∧
       (MinimalImage.copyCtor m b).1.data ≠ b.data ∧
       (∀ i : Int, ∀ v : T, ∀ j : Int,
          ((MinimalImage.copyCtor m b).2.write (MinimalImage.copyCtor m b).1.data
              i v).contents b.data j =
            (MinimalImage.copyCtor m b).2.contents b.data j ∧
          ((MinimalImage.copyCtor m b).2.write b.data i v).contents
              (MinimalImage.copyCtor m b).1.data j =
            (MinimalImage.copyCtor m b).2.contents
              (MinimalImage.copyCtor m b).1.data j))) ∧
    (b.ownData = false →
      ((MinimalImage.copyCtor m b).1.w = b.w ∧
       (MinimalImage.copyCtor m b).1.h = b.h ∧
       (MinimalImage.copyCtor m b).1.stride = b.stride ∧
       (MinimalImage.copyCtor m b).1.data = b.data ∧
       (MinimalImage.copyCtor m b).1.ownData = false ∧
       (MinimalImage.copyCtor m b).2 = m ∧
       (∀ i : Int, ∀ v : T,
          (m.write (MinimalImage.copyCtor m b).1.data i v).contents b.data i =
            v ∧
          (m.write b.data i v).contents (MinimalImage.copyCtor m b).1.data i =
            v))) ∧
    (b.ownData = true →
      (((MinimalImage.copyAssign s m p q).1 p).w = b.w ∧
       ((MinimalImage.copyAssign s m p q).1 p).h = b.h ∧
       ((MinimalImage.copyAssign s m p q).1 p).stride = b.stride ∧
       ((MinimalImage.copyAssign s m p q).1 p).ownData = true ∧
       (∀ o : Int, 0 ≤ o → o < b.stride * b.h →
          (MinimalImage.copyAssign s m p q).2.contents
            ((MinimalImage.copyAssign s m p q).1 p).data o =
            m.contents b.data o) ∧
       ((MinimalImage.copyAssign s m p q).1 p).data ≠ b.data ∧
       (∀ i : Int, ∀ v : T, ∀ j : Int,
          ((MinimalImage.copyAssign s m p q).2.write
              ((MinimalImage.copyAssign s m p q).1 p).data i v).contents
              b.data j =
            (MinimalImage.copyAssign s m p q).2.contents b.data j ∧
          ((MinimalImage.copyAssign s m p q).2.write b.data i v).contents
              ((MinimalImage.copyAssign s m p q).1 p).data j =
            (MinimalImage.copyAssign s m p q).2.contents
              ((MinimalImage.copyAssign s m p q).1 p).data j))) ∧
    (b.ownData = false →
      (((MinimalImage.copyAssign s m p q).1 p).w = b.w ∧
       ((MinimalImage.copyAssign s m p q).1 p).h = b.h ∧
       ((MinimalImage.copyAssign s m p q).1 p).stride = b.stride ∧
       ((MinimalImage.copyAssign s m p q).1 p).data = b.data ∧
       ((MinimalImage.copyAssign s m p q).1 p).ownData = false ∧
       (∀ j : Int, (MinimalImage.copyAssign s m p q).2.contents b.data j =
          m.contents b.data j) ∧
       (∀ i : Int, ∀ v : T,
          ((MinimalImage.copyAssign s m p q).2.write
              ((MinimalImage.copyAssign s m p q).1 p).data i v).contents
              b.data i = v ∧
          ((MinimalImage.copyAssign s m p q).2.write b.data i v).contents
              ((MinimalImage.copyAssign s m p q).1 p).data i = v))) := by
  refine ⟨?_, ?_, ?_, ?_⟩
  · intro hown
    obtain ⟨hne, hcontents, hmut⟩ :=
      deep_copy_core m m b.data (b.stride * b.h) rfl rfl hvalid
    rw [copyCtor_own m b hown]
    exact ⟨rfl, rfl, rfl, rfl, hcontents, hne, hmut⟩
  · intro hown
    rw [copyCtor_borrow m b hown]
    refine ⟨rfl, rfl, rfl, rfl, rfl, rfl, ?_⟩
    intro i v
    constructor <;> simp [Mem.write]
  · intro hown
    have hsq : (s q).ownData = true := by rw [hq]; exact hown
    rw [copyAssign_own s m p q hpq hsq]
    obtain ⟨hne, hcontents, hmut⟩ :=
      deep_copy_core m
        (if (s p).ownData ∧ (s p).data ≠ 0 then m.free (s p).data else m)
        b.data (b.stride * b.h) (by split_ifs <;> rfl)
        (by split_ifs <;> rfl) hvalid
    rw [hq]
    simp only [setObj, if_pos rfl]
    exact ⟨rfl, rfl, rfl, rfl, hcontents, hne, hmut⟩
  · intro hown
    have hsq : (s q).ownData = false := by rw [hq]; exact hown
    rw [copyAssign_borrow s m p q hpq hsq]
    rw [hq]
    simp only [setObj, if_pos rfl]
    refine ⟨rfl, rfl, rfl, rfl, rfl, ?_, ?_⟩
    · intro j
      split_ifs <;> rfl
    · intro i v
      constructor <;> (split_ifs <;> simp [Mem.write, Mem.free])

/-- Witness for C1 at concrete inputs. -/
theorem C1_copy_semantics_witness :
    (0 : Nat) ≠ 1 ∧ objsA 1 = imgA ∧ imgA.data < memA.nextFree ∧
    ((imgA.ownData = true →
       ((MinimalImage.copyCtor memA imgA).1.w = imgA.w ∧
        (MinimalImage.copyCtor memA imgA).1.h = imgA.h ∧
        (MinimalImage.copyCtor memA imgA).1.stride = imgA.stride ∧
        (MinimalImage.copyCtor memA imgA).1.ownData = true ∧
        (∀ o : Int, 0 ≤ o → o < imgA.stride * imgA.h →
           (MinimalImage.copyCtor memA imgA).2.contents
             (MinimalImage.copyCtor memA imgA).1.data o =
             memA.contents imgA.data o) ∧
        (MinimalImage.copyCtor memA imgA).1.data ≠ imgA.data ∧
        (∀ i : Int, ∀ v : Int, ∀ j : Int,
           ((MinimalImage.copyCtor memA imgA).2.write
               (MinimalImage.copyCtor memA imgA).1.data i v).contents
               imgA.data j =
             (MinimalImage.copyCtor memA imgA).2.contents imgA.data j ∧
           ((MinimalImage.copyCtor memA imgA).2.write imgA.data i v).contents
               (MinimalImage.copyCtor memA imgA).1.data j =
             (MinimalImage.copyCtor memA imgA).2.contents
               (MinimalImage.copyCtor memA imgA).1.data j))) ∧
     (imgA.ownData = false →
       ((MinimalImage.copyCtor memA imgA).1.w = imgA.w ∧
        (MinimalImage.copyCtor memA imgA).1.h = imgA.h ∧
        (MinimalImage.copyCtor memA imgA).1.stride = imgA.stride ∧
        (MinimalImage.copyCtor memA imgA).1.data = imgA.data ∧
        (MinimalImage.copyCtor memA imgA).1.ownData = false ∧
        (MinimalImage.copyCtor memA imgA).2 = memA ∧
        (∀ i : Int, ∀ v : Int,
           (memA.write (MinimalImage.copyCtor memA imgA).1.data i v).contents
             imgA.data i = v ∧
           (memA.write imgA.data i v).contents
             (MinimalImage.copyCtor memA imgA).1.data i = v))) ∧
     (imgA.ownData = true →
       (((MinimalImage.copyAssign objsA memA 0 1).1 0).w = imgA.w ∧
        ((MinimalImage.copyAssign objsA memA 0 1).1 0).h = imgA.h ∧
        ((MinimalImage.copyAssign objsA memA 0 1).1 0).stride = imgA.stride ∧
        ((MinimalImage.copyAssign objsA memA 0 1).1 0).ownData = true ∧
        (∀ o : Int, 0 ≤ o → o < imgA.stride * imgA.h →
           (MinimalImage.copyAssign objsA memA 0 1).2.contents
             ((MinimalImage.copyAssign objsA memA 0 1).1 0).data o =
             memA.contents imgA.data o) ∧
        ((MinimalImage.copyAssign objsA memA 0 1).1 0).data ≠ imgA.data ∧
        (∀ i : Int, ∀ v : Int, ∀ j : Int,
           ((MinimalImage.copyAssign objsA memA 0 1).2.write
               ((MinimalImage.copyAssign objsA memA 0 1).1 0).data i
               v).contents imgA.data j =
             (MinimalImage.copyAssign objsA memA 0 1).2.contents imgA.data
               j ∧
           ((MinimalImage.copyAssign objsA memA 0 1).2.write imgA.data i
               v).contents
               ((MinimalImage.copyAssign objsA memA 0 1).1 0).data j =
             (MinimalImage.copyAssign objsA memA 0 1).2.contents
               ((MinimalImage.copyAssign objsA memA 0 1).1 0).data j))) ∧
     (imgA.ownData = false →
       (((MinimalImage.copyAssign objsA memA 0 1).1 0).w = imgA.w ∧
        ((MinimalImage.copyAssign objsA memA 0 1).1 0).h = imgA.h ∧
        ((MinimalImage.copyAssign objsA memA 0 1).1 0).stride = imgA.stride ∧
        ((MinimalImage.copyAssign objsA memA 0 1).1 0).data = imgA.data ∧
        ((MinimalImage.copyAssign objsA memA 0 1).1 0).ownData = false ∧
        (∀ j : Int, (MinimalImage.copyAssign objsA memA 0 1).2.contents
           imgA.data j = memA.contents imgA.data j) ∧
        (∀ i : Int, ∀ v : Int,
           ((MinimalImage.copyAssign objsA memA 0 1).2.write
               ((MinimalImage.copyAssign objsA memA 0 1).1 0).data i
               v).contents imgA.data i = v ∧
           ((MinimalImage.copyAssign objsA memA 0 1).2.write imgA.data i
               v).contents
               ((MinimalImage.copyAssign objsA memA 0 1).1 0).data i =
             v)))) :=
  ⟨by decide, rfl, by decide,
   C1_copy_semantics Int imgA memA objsA 0 1 (by decide) rfl (by decide)⟩

/-- The offsets written by one `setPixelCirc` loop iteration `i`: the eight
cells `(u±3, v+i)`, `(u±2, v+i)`, `(u+i, v±3)`, `(u+i, v±2)`. -/
def circOff (u v s o i : Int) : Prop :=
  o = (u + 3) + (v + i) * s ∨ o = (u - 3) + (v + i) * s ∨
  o = (u + 2) + (v + i) * s ∨ o = (u - 2) + (v + i) * s ∨
  o = (u + i) + (v - 3) * s ∨ o = (u + i) + (v + 3) * s ∨
  o = (u + i) + (v - 2) * s ∨ o = (u + i) + (v + 2) * s

/-- A loop iteration of `setPixelCirc` leaves every cell outside its eight
write offsets unchanged. -/
theorem circWrites_frame (img : MinimalImage T) (u v : Int) (val : T)
    (i : Int) (m : Mem T) (c : Nat) (o : Int)
    (hnc : ¬(c = img.data ∧ circOff u v img.stride o i)) :
    (MinimalImage.circWrites img u v val i m).contents c o =
      m.contents c o := by
  simp only [MinimalImage.circWrites, MinimalImage.setXY, Mem.write]
  rw [if_neg (fun hco => hnc ⟨hco.1, Or.inr (Or.inr (Or.inr (Or.inr (Or.inr
        (Or.inr (Or.inr hco.2))))))⟩),
      if_neg (fun hco => hnc ⟨hco.1, Or.inr (Or.inr (Or.inr (Or.inr (Or.inr
        (Or.inr (Or.inl hco.2))))))⟩),
      if_neg (fun hco => hnc ⟨hco.1, Or.inr (Or.inr (Or.inr (Or.inr (Or.inr
        (Or.inl hco.2)))))⟩),
      if_neg (fun hco => hnc ⟨hco.1, Or.inr (Or.inr (Or.inr (Or.inr
        (Or.inl hco.2))))⟩),
      if_neg (fun hco => hnc ⟨hco.1, Or.inr (Or.inr (Or.inr
        (Or.inl hco.2)))⟩),
      if_neg (fun hco => hnc ⟨hco.1, Or.inr (Or.inr (Or.inl hco.2))⟩),
      if_neg (fun hco => hnc ⟨hco.1, Or.inr (Or.inl hco.2)⟩),
      if_neg (fun hco => hnc ⟨hco.1, Or.inl hco.2⟩)]

/-- The `setPixelCirc` loop leaves every cell outside the write offsets of
its completed iterations unchanged. -/
theorem circLoop_frame (img : MinimalImage T) (u v : Int) (val : T)
    (k : Nat) (m : Mem T) (c : Nat) (o : Int)
    (hnc : ∀ i : Int, -3 ≤ i → i < -3 + (k : Int) →
      ¬(c = img.data ∧ circOff u v img.stride o i)) :
    (MinimalImage.circLoop img u v val k m).contents c o =
      m.contents c o := by
  induction k with
  | zero => rfl
  | succ n ih =>
      simp only [MinimalImage.circLoop]
      rw [circWrites_frame img u v val (-3 + (n : Int)) _ c o
          (hnc (-3 + (n : Int)) (by omega) (by push_cast; omega)),
        ih (fun i h1 h2 => hnc i h1 (by push_cast at h2 ⊢; omega))]

/-- Claim C10: with the whole radius-3 diamond in bounds,
`setPixelCirc(u, v, val)` leaves every pixel at offsets `|dx| ≤ 1`,
`|dy| ≤ 1` from the center unchanged (in particular the center itself),
and any cell of the backing store it changes lies at a pixel with
`|dx| ∈ {2,3}` or `|dy| ∈ {2,3}`. -/
theorem C10_setPixelCirc_ring (T : Type) (m : Mem T) (img : MinimalImage T)
    (u v : Int) (val : T) (hws : img.w ≤ img.stride) (hu3 : 3 ≤ u)
    (huw : u + 3 < img.w) (hv3 : 3 ≤ v) (hvh : v + 3 < img.h) :
    (∀ dx dy : Int, -1 ≤ dx → dx ≤ 1 → -1 ≤ dy → dy ≤ 1 →
       MinimalImage.atXY (MinimalImage.setPixelCirc m img u v val) img
           (u + dx) (v + dy) =
         MinimalImage.atXY m img (u + dx) (v + dy)) ∧
    (∀ x y : Int, 0 ≤ x → x < img.stride →
       MinimalImage.atXY (MinimalImage.setPixelCirc m img u v val) img x y ≠
         MinimalImage.atXY m img x y →
       ((x - u).natAbs = 2 ∨ (x - u).natAbs = 3 ∨ (y - v).natAbs = 2 ∨
        (y - v).natAbs = 3)) := by
  constructor
  · intro dx dy hdx1 hdx2 hdy1 hdy2
    apply circLoop_frame
    intro i hi1 hi2
    push_cast at hi2
    rintro ⟨-, ho⟩
    rcases ho with h | h | h | h | h | h | h | h
    · obtain ⟨e1, e2⟩ := offset_inj img.stride (u + dx) (v + dy) (u + 3)
        (v + i) (by omega) (by omega) (by omega) (by omega) h
      omega
    · obtain ⟨e1, e2⟩ := offset_inj img.stride (u + dx) (v + dy) (u - 3)
        (v + i) (by omega) (by omega) (by omega) (by omega) h
      omega
    · obtain ⟨e1, e2⟩ := offset_inj img.stride (u + dx) (v + dy) (u + 2)
        (v + i) (by omega) (by omega) (by omega) (by omega) h
      omega
    · obtain ⟨e1, e2⟩ := offset_inj img.stride (u + dx) (v + dy) (u - 2)
        (v + i) (by omega) (by omega) (by omega) (by omega) h
      omega
    · obtain ⟨e1, e2⟩ := offset_inj img.stride (u + dx) (v + dy) (u + i)
        (v - 3) (by omega) (by omega) (by omega) (by omega) h
      omega
    · obtain ⟨e1, e2⟩ := offset_inj img.stride (u + dx) (v + dy) (u + i)
        (v + 3) (by omega) (by omega) (by omega) (by omega) h
      omega
    · obtain ⟨e1, e2⟩ := offset_inj img.stride (u + dx) (v + dy) (u + i)
        (v - 2) (by omega) (by omega) (by omega) (by omega) h
      omega
    · obtain ⟨e1, e2⟩ := offset_inj img.stride (u + dx) (v + dy) (u + i)
        (v + 2) (by omega) (by omega) (by omega) (by omega) h
      omega
  · intro x y hx0 hxs hchanged
    by_contra hpat
    apply hchanged
    apply circLoop_frame
    intro i hi1 hi2
    push_cast at hi2
    rintro ⟨-, ho⟩
    rcases ho with h | h | h | h | h | h | h | h
    · obtain ⟨e1, e2⟩ := offset_inj img.stride x y (u + 3) (v + i) hx0 hxs
        (by omega) (by omega) h
      exact hpat (by omega)
    · obtain ⟨e1, e2⟩ := offset_inj img.stride x y (u - 3) (v + i) hx0 hxs
        (by omega) (by omega) h
      exact hpat (by omega)
    · obtain ⟨e1, e2⟩ := offset_inj img.stride x y (u + 2) (v + i) hx0 hxs
        (by omega) (by omega) h
      exact hpat (by omega)
    · obtain ⟨e1, e2⟩ := offset_inj img.stride x y (u - 2) (v + i) hx0 hxs
        (by omega) (by omega) h
      exact hpat (by omega)
    · obtain ⟨e1, e2⟩ := offset_inj img.stride x y (u + i) (v - 3) hx0 hxs
        (by omega) (by omega) h
      exact hpat (by omega)
    · obtain ⟨e1, e2⟩ := offset_inj img.stride x y (u + i) (v + 3) hx0 hxs
        (by omega) (by omega) h
      exact hpat (by omega)
    · obtain ⟨e1, e2⟩ := offset_inj img.stride x y (u + i) (v - 2) hx0 hxs
        (by omega) (by omega) h
      exact hpat (by omega)
    · obtain ⟨e1, e2⟩ := offset_inj img.stride x y (u + i) (v + 2) hx0 hxs
        (by omega) (by omega) h
      exact hpat (by omega)

/-- Witness for C10 at concrete inputs. -/
theorem C10_setPixelCirc_ring_witness :
    imgC.w ≤ imgC.stride ∧ (3 : Int) ≤ 4 ∧ (4 : Int) + 3 < imgC.w ∧
    (3 : Int) ≤ 4 ∧ (4 : Int) + 3 < imgC.h ∧
    ((∀ dx dy : Int, -1 ≤ dx → dx ≤ 1 → -1 ≤ dy → dy ≤ 1 →
        MinimalImage.atXY (MinimalImage.setPixelCirc memA imgC 4 4 9) imgC
            (4 + dx) (4 + dy) =
          MinimalImage.atXY memA imgC (4 + dx) (4 + dy)) ∧
     (∀ x y : Int, 0 ≤ x → x < imgC.stride →
        MinimalImage.atXY (MinimalImage.setPixelCirc memA imgC 4 4 9) imgC
            x y ≠
          MinimalImage.atXY memA imgC x y →
        ((x - 4).natAbs = 2 ∨ (x - 4).natAbs = 3 ∨ (y - 4).natAbs = 2 ∨
         (y - 4).natAbs = 3))) :=
  ⟨by decide, by decide, by decide, by decide, by decide,
   C10_setPixelCirc_ring Int memA imgC 4 4 9 (by decide) (by decide)
     (by decide) (by decide) (by decide)⟩

end DSO
